import Mathlib

/-!
# Wooting analog rhythm test — verification development

Shallow embedding of the core of the `wooting-analog-rhythm-test` repository:
the telemetry decoder (`useWebSocket.onmessage`), the two evaluator variants
of `AnalogTypingTest` (the dwell-based variant and the peak-on-release
variant), the sequence generator, the statistics aggregator and the session
controls (`pauseTest`, `resetTest`).

Modelling conventions:
* JS `number` values carrying pressures, deviations and statistics are
  embedded as `ℚ` (the values in play are exact decimals; no claim hinges
  on binary floating-point rounding).
* `Date.now()` timestamps are `ℕ` milliseconds, supplied explicitly.
* A React effect run is one `tick` of an explicit step function on an
  explicit state record; `setTimeout` callbacks are modelled as pending
  deadlines stored in the state (`pendingAdvance`), fired by an explicit
  `fireAdvance` step, since the source never cancels them.
* `parseFloat` may produce `NaN`; the decoded analog value is therefore an
  `Option ℚ`, with `none` standing for `NaN`.
-/

/-- Structure `KeyData` as consumed by the evaluator components: one per-key snapshot.
`isPressed` is the wire's numeric pressed flag (`1` means pressed). -/
structure KeyData where
  keyCode : ℕ
  analogValue : ℚ
  isPressed : ℕ
  deriving DecidableEq, Repr

/-- One element of the test sequence (source interface `TestSequence`). -/
structure TestSequence where
  key : String
  keyCode : ℕ
  targetPressure : ℚ
  deriving DecidableEq, Repr

/-- Running statistics (source interface `TestStats`). -/
structure TestStats where
  accuracy : ℚ
  totalAttempts : ℕ
  successfulHits : ℕ
  averageDeviation : ℚ
  deriving DecidableEq, Repr

/-- The all-zero statistics record used at initialisation and on reset. -/
def zeroStats : TestStats :=
  { accuracy := 0, totalAttempts := 0, successfulHits := 0, averageDeviation := 0 }

/-- A resolved attempt: the arguments the source passes to `handleAttempt`
(deviation, success flag, toast message). The message plays the role of the
outcome reason: "Wrong key!" / "Perfect!" / "Wrong pressure!" in the dwell
variant, "Wrong key!" / "Good!" / "Missed target" in the release variant. -/
structure Outcome where
  deviation : ℚ
  success : Bool
  message : String
  deriving DecidableEq, Repr

/-- The statistics fold inside `handleAttempt` (identical in both component
variants): increment totals, recompute accuracy, and update the running mean
of deviations incrementally. -/
def statsUpdate (prev : TestStats) (deviation : ℚ) (isSuccess : Bool) : TestStats :=
  let newTotalAttempts := prev.totalAttempts + 1
  let newSuccessfulHits := prev.successfulHits + (if isSuccess then 1 else 0)
  let newAccuracy : ℚ := ((newSuccessfulHits : ℚ) / (newTotalAttempts : ℚ)) * 100
  let newAverageDeviation : ℚ :=
    (prev.averageDeviation * (prev.totalAttempts : ℚ) + deviation) / (newTotalAttempts : ℚ)
  { accuracy := newAccuracy
    totalAttempts := newTotalAttempts
    successfulHits := newSuccessfulHits
    averageDeviation := newAverageDeviation }

/-- The JS cooldown guard `cooldownUntil && Date.now() < cooldownUntil`
(identical in both variants): active when the deadline is set, nonzero
(JS truthiness of the stored number) and still in the future. -/
def cooldownGuard (cooldownUntil : Option ℕ) (now : ℕ) : Bool :=
  match cooldownUntil with
  | some c => c != 0 && now < c
  | none => false

/-- The fixed practice key set `HOME_ROW_KEYS` (key character, HID code). -/
def HOME_ROW_KEYS : List (String × ℕ) :=
  [("a", 4), ("s", 22), ("d", 7), ("f", 9), ("j", 13), ("k", 14), ("l", 15)]

namespace Dwell

/-!
The dwell-based evaluator variant (the `AnalogTypingTest` component found in
the unnamed source part): hold start recorded on first contact, resolution
once the key has been held for 750 ms, outcome from the pressure sampled on
the resolving telemetry tick.
-/

/-- Constant `PRESSURE_LEVELS` of the dwell variant. -/
def PRESSURE_LEVELS : List ℚ := [30, 60, 100]

/-- Component state of the dwell variant. `pendingAdvance` holds the
deadlines of `setTimeout` advance callbacks scheduled by `handleAttempt`
and not yet fired (the source never cancels them). -/
structure State where
  testSequence : List TestSequence
  currentIndex : ℕ
  isTestActive : Bool
  holdStartTime : Option ℕ
  cooldownUntil : Option ℕ
  testStats : TestStats
  pendingAdvance : List ℕ
  deriving DecidableEq, Repr

/-- Function `handleAttempt` of the dwell variant: fold the outcome into the stats,
clear the hold start, open a 3000 ms cooldown and schedule the advance
callback for 3000 ms in the future. -/
def handleAttempt (s : State) (deviation : ℚ) (isSuccess : Bool) (now : ℕ) : State :=
  { s with
    testStats := statsUpdate s.testStats deviation isSuccess
    holdStartTime := none
    cooldownUntil := some (now + 3000)
    pendingAdvance := s.pendingAdvance ++ [now + 3000] }

/-- One run of the dwell variant's evaluation effect on a telemetry update
at time `now`. Returns the new state and the resolved outcome, if any. -/
def tick (s : State) (keyData : List KeyData) (now : ℕ) : State × Option Outcome :=
  if s.isTestActive = false ∨ s.testSequence.length ≤ s.currentIndex then (s, none)
  else if cooldownGuard s.cooldownUntil now then (s, none)
  else
    match s.testSequence[s.currentIndex]? with
    | none => (s, none)
    | some currentTarget =>
      if (keyData.find? fun k => k.keyCode != currentTarget.keyCode && k.isPressed == 1).isSome
      then
        (handleAttempt s 100 false now, some ⟨100, false, "Wrong key!"⟩)
      else
        match keyData.find? fun k => k.keyCode == currentTarget.keyCode && k.isPressed == 1 with
        | some correctKeyPress =>
          let pressurePercent := correctKeyPress.analogValue * 100
          let deviation := |pressurePercent - currentTarget.targetPressure|
          -- The source's guard `!holdStartTime` is true both for `null` and
          -- for a recorded time of `0` (JS falsiness of the number 0, the
          -- same truthiness modelled in `cooldownGuard`): in both cases the
          -- hold start is (re-)armed to `now` instead of being evaluated.
          if deviation ≤ 10 then
            match s.holdStartTime with
            | none => ({ s with holdStartTime := some now }, none)
            | some t0 =>
              if t0 = 0 then ({ s with holdStartTime := some now }, none)
              else if 750 ≤ now - t0 then
                (handleAttempt s deviation true now, some ⟨deviation, true, "Perfect!"⟩)
              else (s, none)
          else
            match s.holdStartTime with
            | none => ({ s with holdStartTime := some now }, none)
            | some t0 =>
              if t0 = 0 then ({ s with holdStartTime := some now }, none)
              else if 750 ≤ now - t0 then
                (handleAttempt s deviation false now, some ⟨deviation, false, "Wrong pressure!"⟩)
              else (s, none)
        | none => ({ s with holdStartTime := none }, none)

/-- The body of the `setTimeout` scheduled by `handleAttempt`, run when its
deadline passes: advance the index by one and clear the cooldown. -/
def fireAdvance (s : State) : State :=
  match s.pendingAdvance with
  | [] => s
  | _ :: rest =>
    { s with currentIndex := s.currentIndex + 1, cooldownUntil := none, pendingAdvance := rest }

/-- Run a list of telemetry ticks in order, collecting resolved outcomes. -/
def runTicks (s : State) : List (List KeyData × ℕ) → State × List Outcome
  | [] => (s, [])
  | (kd, t) :: rest =>
    let step := tick s kd t
    let remainder := runTicks step.1 rest
    (remainder.1, step.2.toList ++ remainder.2)

/-- Function `generateTestSequence` of the dwell variant, with the stream of
`Math.random()` results supplied as `rand` (two draws per element, in call
order). Each draw is a real in `[0,1)`; the source indexes the key and level
arrays with `Math.floor(rand * length)`. The `getD` defaults are never hit
for draws in `[0,1)`. -/
def generateTestSequence (rand : ℕ → ℚ) : List TestSequence :=
  (List.range 20).map fun i =>
    let randomKey := HOME_ROW_KEYS.getD (⌊rand (2 * i) * (HOME_ROW_KEYS.length : ℚ)⌋).toNat ("a", 4)
    let randomPressure := PRESSURE_LEVELS.getD (⌊rand (2 * i + 1) * (PRESSURE_LEVELS.length : ℚ)⌋).toNat 0
    { key := randomKey.1, keyCode := randomKey.2, targetPressure := randomPressure }

/-- Function `pauseTest` of the dwell variant: only deactivates the test. -/
def pauseTest (s : State) : State :=
  { s with isTestActive := false }

/-- Function `resetTest` of the dwell variant: deactivate, rewind the index, zero the
stats, clear hold and cooldown, regenerate the sequence. Pending advance
callbacks are NOT cancelled, exactly as in the source. -/
def resetTest (s : State) (rand : ℕ → ℚ) : State :=
  { s with
    isTestActive := false
    currentIndex := 0
    testStats := zeroStats
    holdStartTime := none
    cooldownUntil := none
    testSequence := generateTestSequence rand }

end Dwell

namespace Front

/-!
The peak-on-release evaluator variant
(`src/frontend/src/components/AnalogTypingTest.tsx`): track the maximum
analog value while the target key stays pressed, resolve on release against
that peak.
-/

/-- Constant `PRESSURE_LEVELS_MAP` of the release variant: the two supported level
configurations, keyed by `levelCount`. -/
def PRESSURE_LEVELS_MAP (levelCount : ℕ) : Option (List ℚ) :=
  if levelCount = 2 then some [50, 100]
  else if levelCount = 3 then some [30, 60, 100]
  else none

/-- Component state of the release variant. -/
structure State where
  levelCount : ℕ
  testSequence : List TestSequence
  currentIndex : ℕ
  isTestActive : Bool
  cooldownUntil : Option ℕ
  maxAnalog : ℚ
  keyHeld : Bool
  testStats : TestStats
  pendingAdvance : List ℕ
  deriving DecidableEq, Repr

/-- Function `handleAttempt` of the release variant: fold the outcome into the stats,
open a 3000 ms cooldown and schedule the advance callback. -/
def handleAttempt (s : State) (deviation : ℚ) (isSuccess : Bool) (now : ℕ) : State :=
  { s with
    testStats := statsUpdate s.testStats deviation isSuccess
    cooldownUntil := some (now + 3000)
    pendingAdvance := s.pendingAdvance ++ [now + 3000] }

/-- The release branch of the effect: if the target key was being held,
resolve against the tracked peak and clear the tracking fields. -/
def releaseBranch (s : State) (currentTarget : TestSequence) (now : ℕ) :
    State × Option Outcome :=
  if s.keyHeld then
    let percent := s.maxAnalog * 100
    let deviation := |percent - currentTarget.targetPressure|
    let success := deviation ≤ 10
    let s1 := handleAttempt s deviation success now
    ({ s1 with keyHeld := false, maxAnalog := 0 },
      some ⟨deviation, success, if success then "Good!" else "Missed target"⟩)
  else (s, none)

/-- One run of the release variant's evaluation effect on a telemetry update
at time `now`. -/
def tick (s : State) (keyData : List KeyData) (now : ℕ) : State × Option Outcome :=
  if s.isTestActive = false ∨ s.testSequence.length ≤ s.currentIndex then (s, none)
  else if cooldownGuard s.cooldownUntil now then (s, none)
  else
    match s.testSequence[s.currentIndex]? with
    | none => (s, none)
    | some currentTarget =>
      if (keyData.find? fun k => k.keyCode != currentTarget.keyCode && k.isPressed != 0).isSome
      then
        (handleAttempt s 100 false now, some ⟨100, false, "Wrong key!"⟩)
      else
        match keyData.find? fun k => k.keyCode == currentTarget.keyCode with
        | some keyEvent =>
          if keyEvent.isPressed ≠ 0 then
            ({ s with keyHeld := true, maxAnalog := max s.maxAnalog keyEvent.analogValue }, none)
          else releaseBranch s currentTarget now
        | none => releaseBranch s currentTarget now

/-- The body of the `setTimeout` scheduled by `handleAttempt`, run when its
deadline passes. -/
def fireAdvance (s : State) : State :=
  match s.pendingAdvance with
  | [] => s
  | _ :: rest =>
    { s with currentIndex := s.currentIndex + 1, cooldownUntil := none, pendingAdvance := rest }

/-- Function `generateTestSequence` of the release variant: levels drawn from
`PRESSURE_LEVELS_MAP[levelCount] || [30, 60, 100]`. -/
def generateTestSequence (levelCount : ℕ) (rand : ℕ → ℚ) : List TestSequence :=
  let levels := (PRESSURE_LEVELS_MAP levelCount).getD [30, 60, 100]
  (List.range 20).map fun i =>
    let randomKey := HOME_ROW_KEYS.getD (⌊rand (2 * i) * (HOME_ROW_KEYS.length : ℚ)⌋).toNat ("a", 4)
    let randomPressure := levels.getD (⌊rand (2 * i + 1) * (levels.length : ℚ)⌋).toNat 0
    { key := randomKey.1, keyCode := randomKey.2, targetPressure := randomPressure }

/-- Function `pauseTest` of the release variant: only deactivates the test. -/
def pauseTest (s : State) : State :=
  { s with isTestActive := false }

/-- Function `resetTest` of the release variant. Pending advance callbacks are NOT
cancelled, exactly as in the source. -/
def resetTest (s : State) (rand : ℕ → ℚ) : State :=
  { s with
    isTestActive := false
    currentIndex := 0
    testStats := zeroStats
    cooldownUntil := none
    maxAnalog := 0
    keyHeld := false
    testSequence := generateTestSequence s.levelCount rand }

end Front

namespace Decoder

/-!
The telemetry decoder inside `useWebSocket`'s `ws.onmessage`:

  const keyMatches = message.match(/\((\d+):([^:]+):(\d+)\)/g);
  if (keyMatches) { setKeyData(keyMatches.map(parse)); }

The regex has no effective backtracking: each repetition (`\d+`, `[^:]+`)
is a maximal run whose terminator character is excluded from the class, so
a match starting at a given position is the unique greedy decomposition
`'(' digits ':' non-colons ':' digits ')'`, and the global scan takes
leftmost non-overlapping matches. `scanGroups` below implements exactly
that scan.
-/

/-- One regex match: the three captured fields (keyCode digits, analog
field, pressed digits), as character lists. -/
structure Group where
  keyCodeStr : List Char
  analogStr : List Char
  pressedStr : List Char
  deriving DecidableEq, Repr

/-- Consume one expected literal character. -/
def expectChar (c : Char) : List Char → Option (List Char)
  | x :: r => if x = c then some r else none
  | [] => none

/-- Consume a maximal nonempty run of characters satisfying `p` (the greedy
semantics of `\d+` and `[^:]+`): the run and the remainder. -/
def takeNonempty (p : Char → Bool) (s : List Char) : Option (List Char × List Char) :=
  let t := s.takeWhile p
  if t.isEmpty then none else some (t, s.dropWhile p)

/-- Attempt the regex `\((\d+):([^:]+):(\d+)\)` at the head of the input;
on success return the captured fields and the rest of the input after the
match. -/
def matchGroupAt (s : List Char) : Option (Group × List Char) :=
  (expectChar '(' s).bind fun r1 =>
  (takeNonempty Char.isDigit r1).bind fun dr =>
  (expectChar ':' dr.2).bind fun r3 =>
  (takeNonempty (fun c => c ≠ ':') r3).bind fun ar =>
  (expectChar ':' ar.2).bind fun r5 =>
  (takeNonempty Char.isDigit r5).bind fun pr =>
  (expectChar ')' pr.2).bind fun r7 =>
  some (⟨dr.1, ar.1, pr.1⟩, r7)

/-- Lemma: `expectChar` reconstructs its input. -/
theorem expectChar_sound (c : Char) (s r : List Char) (h : expectChar c s = some r) :
    s = c :: r := by
  match s with
  | [] => simp [expectChar] at h
  | x :: r0 =>
    simp only [expectChar] at h
    split at h
    · next hx => simp only [Option.some.injEq] at h; rw [hx, h]
    · exact absurd h (by simp)

/-- Lemma: `takeNonempty` reconstructs its input, with a nonempty run of
`p`-characters taken. -/
theorem takeNonempty_sound (p : Char → Bool) (s : List Char) (tr : List Char × List Char)
    (h : takeNonempty p s = some tr) :
    s = tr.1 ++ tr.2 ∧ tr.1 ≠ [] ∧ (∀ c ∈ tr.1, p c) := by
  simp only [takeNonempty] at h
  split at h
  · exact absurd h (by simp)
  · next ht =>
    simp only [Option.some.injEq] at h
    subst h
    refine ⟨(List.takeWhile_append_dropWhile p s).symm, ?_, ?_⟩
    · simpa [List.isEmpty_iff] using ht
    · intro c hc
      exact List.mem_takeWhile_imp hc

/-- A successful match consumes at least one character. -/
theorem matchGroupAt_rest_lt (s : List Char) (g : Group) (rest : List Char)
    (h : matchGroupAt s = some (g, rest)) : rest.length < s.length := by
  simp only [matchGroupAt, Option.bind_eq_some] at h
  obtain ⟨r1, h1, dr, h2, r3, h3, ar, h4, r5, h5, pr, h6, r7, h7, hfin⟩ := h
  simp only [Option.some.injEq, Prod.mk.injEq] at hfin
  have hrest : r7 = rest := hfin.2
  subst hrest
  have e1 := expectChar_sound _ _ _ h1
  have e2 := (takeNonempty_sound _ _ _ h2).1
  have e3 := expectChar_sound _ _ _ h3
  have e4 := (takeNonempty_sound _ _ _ h4).1
  have e5 := expectChar_sound _ _ _ h5
  have e6 := (takeNonempty_sound _ _ _ h6).1
  have e7 := expectChar_sound _ _ _ h7
  have l6 : pr.2.length ≤ r5.length := by
    rw [e6]; simp
  have l4 : ar.2.length ≤ r3.length := by
    rw [e4]; simp
  have l2 : dr.2.length ≤ r1.length := by
    rw [e2]; simp
  have l7 : r7.length < pr.2.length := by rw [e7]; simp
  have l5 : r5.length < ar.2.length := by rw [e5]; simp
  have l3 : r3.length < dr.2.length := by rw [e3]; simp
  have l1 : r1.length < s.length := by rw [e1]; simp
  omega

/-- Leftmost non-overlapping global scan of the payload, with bounded
recursion fuel (always called with fuel equal to the input length, which
`matchGroupAt_rest_lt` shows is sufficient). -/
def scanGroupsAux : ℕ → List Char → List Group
  | 0, _ => []
  | _, [] => []
  | fuel + 1, c :: cs =>
    match matchGroupAt (c :: cs) with
    | some (g, rest) => g :: scanGroupsAux fuel rest
    | none => scanGroupsAux fuel cs

/-- All matches of `/\((\d+):([^:]+):(\d+)\)/g` over the payload. -/
def scanGroups (s : List Char) : List Group := scanGroupsAux s.length s

/-- The fuel in `scanGroupsAux` is irrelevant once it reaches the input
length: any two sufficient fuels give the same scan. -/
theorem scanGroupsAux_eq_of_le :
    ∀ (n : ℕ) (s : List Char), s.length ≤ n → ∀ f1 f2, s.length ≤ f1 → s.length ≤ f2 →
      scanGroupsAux f1 s = scanGroupsAux f2 s := by
  intro n
  induction n with
  | zero =>
    intro s hs f1 f2 _ _
    have : s = [] := List.length_eq_zero.mp (Nat.le_zero.mp hs)
    subst this
    cases f1 <;> cases f2 <;> rfl
  | succ n ih =>
    intro s hs f1 f2 h1 h2
    match s with
    | [] => cases f1 <;> cases f2 <;> rfl
    | c :: cs =>
      simp only [List.length_cons] at hs h1 h2
      match f1, f2 with
      | f1 + 1, f2 + 1 =>
        simp only [scanGroupsAux]
        cases hm : matchGroupAt (c :: cs) with
        | some gr =>
          obtain ⟨g, rest⟩ := gr
          have hrest : rest.length < cs.length + 1 := by
            simpa using matchGroupAt_rest_lt _ g rest hm
          show g :: scanGroupsAux f1 rest = g :: scanGroupsAux f2 rest
          rw [ih rest (by omega) f1 f2 (by omega) (by omega)]
        | none =>
          show scanGroupsAux f1 cs = scanGroupsAux f2 cs
          exact ih cs (by omega) f1 f2 (by omega) (by omega)

/-- With fuel at least the input length, `scanGroupsAux` computes the true
unbounded scan `scanGroups`. -/
theorem scanGroupsAux_fuel_eq (fuel : ℕ) (s : List Char) (h : s.length ≤ fuel) :
    scanGroupsAux fuel s = scanGroups s :=
  scanGroupsAux_eq_of_le s.length s le_rfl fuel s.length h le_rfl

/-- Model of `parseInt` on a captured all-digit field. -/
def parseIntNat (ds : List Char) : ℕ :=
  ds.foldl (fun a c => 10 * a + (c.toNat - 48)) 0

/-- Model of `parseFloat` on the captured analog field, restricted to the plain
decimal shapes the wire format carries: an optional sign, an integer part
and an optional fractional part, parsed from the front of the field.
`none` models the `NaN` result when no digits can be read. (Exponent
forms and leading whitespace are not modelled.) -/
def parseFloatQ (s : List Char) : Option ℚ :=
  let signed : Bool × List Char :=
    match s with
    | '-' :: r => (true, r)
    | '+' :: r => (false, r)
    | _ => (false, s)
  let intPart := signed.2.takeWhile Char.isDigit
  let s2 := signed.2.dropWhile Char.isDigit
  let fracPart :=
    match s2 with
    | '.' :: r => r.takeWhile Char.isDigit
    | _ => []
  if intPart.isEmpty ∧ fracPart.isEmpty then none
  else
    let v : ℚ := (parseIntNat intPart : ℚ) + (parseIntNat fracPart : ℚ) / ((10 : ℚ) ^ fracPart.length)
    some (if signed.1 then -v else v)

/-- A decoded per-key record as produced by the `onmessage` map. The analog
value is `none` when `parseFloat` returned `NaN`. -/
structure DecodedKey where
  keyCode : ℕ
  analogValue : Option ℚ
  isPressed : ℕ
  deriving DecidableEq, Repr

/-- The `map` over regex matches inside `onmessage`. -/
def parseGroup (g : Group) : DecodedKey :=
  { keyCode := parseIntNat g.keyCodeStr
    analogValue := parseFloatQ g.analogStr
    isPressed := parseIntNat g.pressedStr }

/-- Decode a whole payload: every regex match becomes one record. -/
def parsePayload (message : String) : List DecodedKey :=
  (scanGroups message.data).map parseGroup

/-- The `onmessage` handler's effect on the `keyData` state: `setKeyData`
runs only when the message is truthy and the regex found at least one
match; otherwise the previous snapshot list is retained. -/
def onMessage (prev : List DecodedKey) (message : String) : List DecodedKey :=
  if message = "" then prev
  else
    match scanGroups message.data with
    | [] => prev
    | gs => gs.map parseGroup

end Decoder

/-! ## Helper lemmas -/

/-- An in-range `getD` access lands in the list. -/
theorem getD_mem_of_lt {α : Type} (l : List α) (i : ℕ) (d : α) (h : i < l.length) :
    l.getD i d ∈ l := by
  rw [List.getD_eq_getElem?_getD, List.getElem?_eq_getElem h]
  exact List.getElem_mem h

/-- The random index computation of `generateTestSequence` stays in range
for draws in `[0,1)`. -/
theorem floor_index_lt (r : ℚ) (n : ℕ) (h0 : 0 ≤ r) (h1 : r < 1) (hn : 0 < n) :
    (⌊r * (n : ℚ)⌋).toNat < n := by
  have hlt : ⌊r * (n : ℚ)⌋ < (n : ℤ) := by
    apply Int.floor_lt.mpr
    push_cast
    nlinarith [mul_lt_mul_of_pos_right h1 (show (0:ℚ) < n by exact_mod_cast hn)]
  have hge : (0:ℤ) ≤ ⌊r * (n : ℚ)⌋ := Int.floor_nonneg.mpr (by positivity)
  omega

/-- The accuracy-field invariant: accuracy is the success ratio, or `0`
while no attempt has been recorded. -/
def AccuracyInv (S : TestStats) : Prop :=
  S.accuracy = if S.totalAttempts = 0 then 0
               else (S.successfulHits : ℚ) / (S.totalAttempts : ℚ) * 100

/-- Step lemma: `statsUpdate` establishes the accuracy invariant unconditionally. -/
theorem statsUpdate_accuracyInv (S : TestStats) (d : ℚ) (b : Bool) :
    AccuracyInv (statsUpdate S d b) := by
  simp [AccuracyInv, statsUpdate]

/-- The incremental mean relation of one `statsUpdate` step. -/
theorem statsUpdate_avg_mul (S : TestStats) (d : ℚ) (b : Bool) :
    (statsUpdate S d b).averageDeviation * ((statsUpdate S d b).totalAttempts : ℚ) =
      S.averageDeviation * (S.totalAttempts : ℚ) + d := by
  have hne : ((S.totalAttempts : ℚ) + 1) ≠ 0 := by positivity
  simp only [statsUpdate]
  push_cast
  field_simp

/-- Fold a list of judged attempts into the statistics, starting from the
zeroed record (the aggregator's whole-session behaviour). -/
def recordAll (rs : List (ℚ × Bool)) : TestStats :=
  rs.foldl (fun S r => statsUpdate S r.1 r.2) zeroStats

/-- Foldl invariant bundle for `recordAll`. -/
theorem foldl_stats_inv (rs : List (ℚ × Bool)) : ∀ S : TestStats,
    ((rs.foldl (fun S r => statsUpdate S r.1 r.2) S).totalAttempts
        = S.totalAttempts + rs.length) ∧
    ((rs.foldl (fun S r => statsUpdate S r.1 r.2) S).successfulHits
        = S.successfulHits + (rs.filter fun r => r.2).length) ∧
    ((rs.foldl (fun S r => statsUpdate S r.1 r.2) S).averageDeviation *
        (((rs.foldl (fun S r => statsUpdate S r.1 r.2) S).totalAttempts : ℕ) : ℚ)
        = S.averageDeviation * (S.totalAttempts : ℚ) + (rs.map Prod.fst).sum) ∧
    (AccuracyInv S → AccuracyInv (rs.foldl (fun S r => statsUpdate S r.1 r.2) S)) := by
  induction rs with
  | nil => intro S; simp
  | cons r rest ih =>
    intro S
    obtain ⟨ih1, ih2, ih3, ih4⟩ := ih (statsUpdate S r.1 r.2)
    simp only [List.foldl_cons]
    refine ⟨?_, ?_, ?_, ?_⟩
    · rw [ih1]
      simp only [statsUpdate, List.length_cons]
      omega
    · rw [ih2]
      by_cases hb : r.2 = true
      · simp only [statsUpdate, List.filter_cons, hb, if_pos]
        simp
        omega
      · have hb' : r.2 = false := by revert hb; cases r.2 <;> simp
        simp only [statsUpdate, List.filter_cons, hb']
        simp
    · rw [ih3, statsUpdate_avg_mul]
      simp only [List.map_cons, List.sum_cons]
      ring
    · intro _
      exact ih4 (statsUpdate_accuracyInv S r.1 r.2)

/-- C4 (claim theorem): statistics invariant of the aggregator.
After any sequence of recorded attempts starting from the zeroed stats:
the attempt and hit counters count the records, accuracy equals
`successfulHits / totalAttempts * 100` whenever `totalAttempts > 0` and is
`0` otherwise, the average deviation is the arithmetic mean of all recorded
deviations, and each step maintains it incrementally by
`(prevAvg * prevTotal + deviation) / newTotal`. -/
theorem stats_aggregator_invariant (rs : List (ℚ × Bool)) :
    (recordAll rs).totalAttempts = rs.length ∧
    (recordAll rs).successfulHits = (rs.filter fun r => r.2).length ∧
    ((recordAll rs).totalAttempts = 0 → (recordAll rs).accuracy = 0) ∧
    (0 < (recordAll rs).totalAttempts →
      (recordAll rs).accuracy =
        ((recordAll rs).successfulHits : ℚ) / ((recordAll rs).totalAttempts : ℚ) * 100) ∧
    (0 < rs.length →
      (recordAll rs).averageDeviation = (rs.map Prod.fst).sum / (rs.length : ℚ)) ∧
    (∀ (S : TestStats) (d : ℚ) (b : Bool),
      (statsUpdate S d b).averageDeviation =
        (S.averageDeviation * (S.totalAttempts : ℚ) + d) / ((S.totalAttempts : ℚ) + 1)) := by
  obtain ⟨h1, h2, h3, h4⟩ := foldl_stats_inv rs zeroStats
  have hz : AccuracyInv zeroStats := by simp [AccuracyInv, zeroStats]
  have hacc := h4 hz
  rw [AccuracyInv] at hacc
  have htot : (recordAll rs).totalAttempts = rs.length := by
    rw [recordAll, h1]
    simp [zeroStats]
  have hhits : (recordAll rs).successfulHits = (rs.filter fun r => r.2).length := by
    rw [recordAll, h2]
    simp [zeroStats]
  have havg : (recordAll rs).averageDeviation * ((recordAll rs).totalAttempts : ℚ)
      = (rs.map Prod.fst).sum := by
    rw [recordAll, h3]
    simp [zeroStats]
  refine ⟨htot, hhits, ?_, ?_, ?_, ?_⟩
  · intro h0
    rw [recordAll] at h0 ⊢
    rw [hacc, if_pos h0]
  · intro h0
    rw [recordAll] at h0 ⊢
    rw [hacc, if_neg (Nat.pos_iff_ne_zero.mp h0)]
  · intro hlen
    rw [htot] at havg
    have hne : ((rs.length : ℕ) : ℚ) ≠ 0 := by
      exact_mod_cast Nat.pos_iff_ne_zero.mp hlen
    exact (eq_div_iff hne).mpr havg
  · intro S d b
    simp only [statsUpdate]
    push_cast
    ring_nf

/-- C4 witness: two concrete attempts, one successful with deviation `1`,
one failed with deviation `5`. -/
theorem stats_aggregator_invariant_witness :
    (recordAll [((1 : ℚ), true), ((5 : ℚ), false)]).accuracy = 50 ∧
    (recordAll [((1 : ℚ), true), ((5 : ℚ), false)]).averageDeviation = 3 := by
  obtain ⟨h1, h2, _, h4, h5, _⟩ := stats_aggregator_invariant [((1 : ℚ), true), ((5 : ℚ), false)]
  constructor
  · rw [h4 (by rw [h1]; norm_num), h1, h2]
    norm_num
  · rw [h5 (by norm_num)]
    norm_num

/-- C10 (claim theorem): `pauseTest` changes only the active flag; the
sequence, index, stats, in-flight hold start, tracked peak, held flag,
cooldown deadline and pending timers are all preserved, in both evaluator
variants. -/
theorem pause_changes_only_active_flag :
    (∀ s : Dwell.State,
      (Dwell.pauseTest s).isTestActive = false ∧
      (Dwell.pauseTest s).testSequence = s.testSequence ∧
      (Dwell.pauseTest s).currentIndex = s.currentIndex ∧
      (Dwell.pauseTest s).testStats = s.testStats ∧
      (Dwell.pauseTest s).holdStartTime = s.holdStartTime ∧
      (Dwell.pauseTest s).cooldownUntil = s.cooldownUntil ∧
      (Dwell.pauseTest s).pendingAdvance = s.pendingAdvance) ∧
    (∀ s : Front.State,
      (Front.pauseTest s).isTestActive = false ∧
      (Front.pauseTest s).testSequence = s.testSequence ∧
      (Front.pauseTest s).currentIndex = s.currentIndex ∧
      (Front.pauseTest s).testStats = s.testStats ∧
      (Front.pauseTest s).maxAnalog = s.maxAnalog ∧
      (Front.pauseTest s).keyHeld = s.keyHeld ∧
      (Front.pauseTest s).cooldownUntil = s.cooldownUntil ∧
      (Front.pauseTest s).levelCount = s.levelCount ∧
      (Front.pauseTest s).pendingAdvance = s.pendingAdvance) :=
  ⟨fun _ => ⟨rfl, rfl, rfl, rfl, rfl, rfl, rfl⟩,
   fun _ => ⟨rfl, rfl, rfl, rfl, rfl, rfl, rfl, rfl, rfl⟩⟩

/-- C9 (claim theorem): reset is idempotent on the stats and the evaluator
state. Both the first and the second of two consecutive resets leave the
zeroed stats record and an idle evaluator (index 0, no hold start, no
cooldown deadline, inactive; in the release variant additionally no tracked
peak and no held flag), in both variants; and the regenerated sequence
contents may differ between the two calls. -/
theorem reset_idempotent_on_stats_and_evaluator :
    (∀ (s : Dwell.State) (rand1 rand2 : ℕ → ℚ),
      (Dwell.resetTest s rand1).testStats = zeroStats ∧
      (Dwell.resetTest (Dwell.resetTest s rand1) rand2).testStats = zeroStats ∧
      (Dwell.resetTest s rand1).currentIndex = 0 ∧
      (Dwell.resetTest (Dwell.resetTest s rand1) rand2).currentIndex = 0 ∧
      (Dwell.resetTest s rand1).holdStartTime = none ∧
      (Dwell.resetTest (Dwell.resetTest s rand1) rand2).holdStartTime = none ∧
      (Dwell.resetTest s rand1).cooldownUntil = none ∧
      (Dwell.resetTest (Dwell.resetTest s rand1) rand2).cooldownUntil = none ∧
      (Dwell.resetTest s rand1).isTestActive = false ∧
      (Dwell.resetTest (Dwell.resetTest s rand1) rand2).isTestActive = false) ∧
    (∀ (s : Front.State) (rand1 rand2 : ℕ → ℚ),
      (Front.resetTest s rand1).testStats = zeroStats ∧
      (Front.resetTest (Front.resetTest s rand1) rand2).testStats = zeroStats ∧
      (Front.resetTest s rand1).currentIndex = 0 ∧
      (Front.resetTest (Front.resetTest s rand1) rand2).currentIndex = 0 ∧
      (Front.resetTest s rand1).cooldownUntil = none ∧
      (Front.resetTest (Front.resetTest s rand1) rand2).cooldownUntil = none ∧
      (Front.resetTest s rand1).maxAnalog = 0 ∧
      (Front.resetTest (Front.resetTest s rand1) rand2).maxAnalog = 0 ∧
      (Front.resetTest s rand1).keyHeld = false ∧
      (Front.resetTest (Front.resetTest s rand1) rand2).keyHeld = false ∧
      (Front.resetTest s rand1).isTestActive = false ∧
      (Front.resetTest (Front.resetTest s rand1) rand2).isTestActive = false) ∧
    (∃ (s : Dwell.State) (rand1 rand2 : ℕ → ℚ),
      (Dwell.resetTest s rand1).testSequence ≠
        (Dwell.resetTest (Dwell.resetTest s rand1) rand2).testSequence) := by
  refine ⟨fun s rand1 rand2 => ⟨rfl, rfl, rfl, rfl, rfl, rfl, rfl, rfl, rfl, rfl⟩,
          fun s rand1 rand2 => ⟨rfl, rfl, rfl, rfl, rfl, rfl, rfl, rfl, rfl, rfl, rfl, rfl⟩,
          ?_⟩
  refine ⟨{ testSequence := [], currentIndex := 0, isTestActive := false,
            holdStartTime := none, cooldownUntil := none, testStats := zeroStats,
            pendingAdvance := [] },
          fun _ => 0, fun _ => (6 : ℚ) / 7, ?_⟩
  intro h
  have h0 := congrArg (fun l => l[0]?) h
  simp only [Dwell.resetTest] at h0
  simp only [Dwell.generateTestSequence] at h0
  rw [List.getElem?_map, List.getElem?_map] at h0
  have hr : (List.range 20)[0]? = some 0 := by decide
  rw [hr] at h0
  simp only [Option.map_some'] at h0
  have hf0 : ((⌊(0 : ℚ) * ((HOME_ROW_KEYS.length : ℕ) : ℚ)⌋).toNat) = 0 := by
    norm_num
  have hf6 : ((⌊((6 : ℚ) / 7) * ((HOME_ROW_KEYS.length : ℕ) : ℚ)⌋).toNat) = 6 := by
    show ((⌊((6 : ℚ) / 7) * ((7 : ℕ) : ℚ)⌋).toNat) = 6
    norm_num
    rfl
  rw [hf0, hf6] at h0
  simp [HOME_ROW_KEYS] at h0

/-- C2 (claim theorem): decoy presses short-circuit the attempt. In either
evaluator variant, while active on a valid target and not in cooldown, if
any key other than the target's `keyCode` is reported pressed, the tick
resolves immediately through `handleAttempt` with deviation `100`, failure
and reason "Wrong key!", regardless of the target key's own state (the
hypotheses say nothing about the target key) and with no dwell condition. -/
theorem wrong_key_short_circuit :
    (∀ (s : Dwell.State) (keyData : List KeyData) (now : ℕ) (tgt : TestSequence),
      s.isTestActive = true →
      s.testSequence[s.currentIndex]? = some tgt →
      cooldownGuard s.cooldownUntil now = false →
      (∃ k ∈ keyData, k.keyCode ≠ tgt.keyCode ∧ k.isPressed = 1) →
      Dwell.tick s keyData now =
        (Dwell.handleAttempt s 100 false now, some ⟨100, false, "Wrong key!"⟩) ∧
      (Dwell.tick s keyData now).1.cooldownUntil = some (now + 3000) ∧
      (Dwell.tick s keyData now).1.testStats.totalAttempts = s.testStats.totalAttempts + 1) ∧
    (∀ (s : Front.State) (keyData : List KeyData) (now : ℕ) (tgt : TestSequence),
      s.isTestActive = true →
      s.testSequence[s.currentIndex]? = some tgt →
      cooldownGuard s.cooldownUntil now = false →
      (∃ k ∈ keyData, k.keyCode ≠ tgt.keyCode ∧ k.isPressed = 1) →
      Front.tick s keyData now =
        (Front.handleAttempt s 100 false now, some ⟨100, false, "Wrong key!"⟩) ∧
      (Front.tick s keyData now).1.cooldownUntil = some (now + 3000) ∧
      (Front.tick s keyData now).1.testStats.totalAttempts = s.testStats.totalAttempts + 1) := by
  constructor
  · intro s keyData now tgt hact htgt hcool hdecoy
    have hidx : s.currentIndex < s.testSequence.length := (List.getElem?_eq_some.mp htgt).1
    obtain ⟨k, hk, hne, hp⟩ := hdecoy
    have hfind : (keyData.find? fun k => k.keyCode != tgt.keyCode && k.isPressed == 1).isSome := by
      rw [List.find?_isSome]
      exact ⟨k, hk, by simp [hne, hp]⟩
    have hmain : Dwell.tick s keyData now =
        (Dwell.handleAttempt s 100 false now, some ⟨100, false, "Wrong key!"⟩) := by
      unfold Dwell.tick
      rw [if_neg (by rw [hact]; push_neg; exact ⟨by simp, hidx⟩), if_neg (by rw [hcool]; simp)]
      rw [htgt]
      simp only [hfind, if_pos]
    refine ⟨hmain, ?_, ?_⟩ <;> rw [hmain] <;> rfl
  · intro s keyData now tgt hact htgt hcool hdecoy
    have hidx : s.currentIndex < s.testSequence.length := (List.getElem?_eq_some.mp htgt).1
    obtain ⟨k, hk, hne, hp⟩ := hdecoy
    have hfind : (keyData.find? fun k => k.keyCode != tgt.keyCode && k.isPressed != 0).isSome := by
      rw [List.find?_isSome]
      exact ⟨k, hk, by simp [hne, hp]⟩
    have hmain : Front.tick s keyData now =
        (Front.handleAttempt s 100 false now, some ⟨100, false, "Wrong key!"⟩) := by
      unfold Front.tick
      rw [if_neg (by rw [hact]; push_neg; exact ⟨by simp, hidx⟩), if_neg (by rw [hcool]; simp)]
      rw [htgt]
      simp only [hfind, if_pos]
    refine ⟨hmain, ?_, ?_⟩ <;> rw [hmain] <;> rfl

/-- C2 witness: target `f` (code 9, pressure 60) untouched, decoy `s`
(code 22) pressed at 0.9 — the attempt resolves immediately as
`{100, false, "Wrong key!"}`. -/
theorem wrong_key_short_circuit_witness :
    (Dwell.tick
      { testSequence := [{ key := "f", keyCode := 9, targetPressure := 60 }],
        currentIndex := 0, isTestActive := true, holdStartTime := none,
        cooldownUntil := none, testStats := zeroStats, pendingAdvance := [] }
      [{ keyCode := 22, analogValue := 9 / 10, isPressed := 1 }] 0).2 =
      some ⟨100, false, "Wrong key!"⟩ := by
  have h := (wrong_key_short_circuit.1
    { testSequence := [{ key := "f", keyCode := 9, targetPressure := 60 }],
      currentIndex := 0, isTestActive := true, holdStartTime := none,
      cooldownUntil := none, testStats := zeroStats, pendingAdvance := [] }
    [{ keyCode := 22, analogValue := 9 / 10, isPressed := 1 }] 0
    { key := "f", keyCode := 9, targetPressure := 60 }
    rfl rfl rfl
    ⟨{ keyCode := 22, analogValue := 9 / 10, isPressed := 1 }, by simp, by decide, rfl⟩).1
  rw [h]

/-- C3 (claim theorem): cooldown discipline of the evaluator
(release variant, whose `handleAttempt` and guard are cited).
(a) Whenever a tick resolves an attempt, the new state carries a cooldown
deadline exactly 3000 ms in the future and a pending advance callback
scheduled for the same instant. (b) While the cooldown deadline lies in the
future, every telemetry update is ignored entirely — the state is unchanged
and no outcome is produced, whatever the snapshot contains. (c) When the
scheduled callback fires, the sequence index advances by exactly one, the
cooldown is cleared and the callback is consumed. -/
theorem cooldown_discipline :
    (∀ (s : Front.State) (keyData : List KeyData) (now : ℕ) (s' : Front.State) (o : Outcome),
      Front.tick s keyData now = (s', some o) →
      s'.cooldownUntil = some (now + 3000) ∧
      s'.pendingAdvance = s.pendingAdvance ++ [now + 3000]) ∧
    (∀ (s : Front.State) (keyData : List KeyData) (now c : ℕ),
      s.cooldownUntil = some c → c ≠ 0 → now < c →
      Front.tick s keyData now = (s, none)) ∧
    (∀ (s : Front.State) (d : ℕ) (rest : List ℕ),
      s.pendingAdvance = d :: rest →
      (Front.fireAdvance s).currentIndex = s.currentIndex + 1 ∧
      (Front.fireAdvance s).cooldownUntil = none ∧
      (Front.fireAdvance s).pendingAdvance = rest) := by
  refine ⟨?_, ?_, ?_⟩
  · intro s keyData now s' o h
    unfold Front.tick at h
    split at h
    · simp at h
    · split at h
      · simp at h
      · split at h
        · simp at h
        · split at h
          · injection h with h1 h2
            subst h1
            exact ⟨rfl, rfl⟩
          · split at h
            · split at h
              · simp at h
              · unfold Front.releaseBranch at h
                split at h
                · injection h with h1 h2
                  subst h1
                  exact ⟨rfl, rfl⟩
                · simp at h
            · unfold Front.releaseBranch at h
              split at h
              · injection h with h1 h2
                subst h1
                exact ⟨rfl, rfl⟩
              · simp at h
  · intro s keyData now c hc hne hlt
    by_cases h1 : s.isTestActive = false ∨ s.testSequence.length ≤ s.currentIndex
    · unfold Front.tick
      rw [if_pos h1]
    · unfold Front.tick
      rw [if_neg h1, if_pos (by rw [hc]; simp [cooldownGuard, hne, hlt])]
  · intro s d rest hp
    unfold Front.fireAdvance
    rw [hp]
    exact ⟨rfl, rfl, rfl⟩

/-- Fixture: target entry `f` (HID code 9) at pressure 60. -/
def targetF : TestSequence :=
  { key := "f", keyCode := 9, targetPressure := 60 }

/-- Fixture: a release-variant state idle on `targetF`. -/
def sF0 : Front.State :=
  { levelCount := 3, testSequence := [targetF], currentIndex := 0, isTestActive := true,
    cooldownUntil := none, maxAnalog := 0, keyHeld := false, testStats := zeroStats,
    pendingAdvance := [] }

/-- Fixture: a release-variant state in cooldown until 3000 with the
advance callback pending. -/
def sFcool : Front.State :=
  { levelCount := 3, testSequence := [targetF], currentIndex := 0, isTestActive := true,
    cooldownUntil := some 3000, maxAnalog := 0, keyHeld := false, testStats := zeroStats,
    pendingAdvance := [0 + 3000] }

/-- Fixture: decoy snapshot, key `s` (HID code 22) pressed at 0.9. -/
def decoyS : KeyData :=
  { keyCode := 22, analogValue := 9 / 10, isPressed := 1 }

/-- Fixture: target-key snapshot, key `f` pressed at exactly 0.6. -/
def pressF60 : KeyData :=
  { keyCode := 9, analogValue := 6 / 10, isPressed := 1 }

/-- C3 witness: a concrete wrong-key resolution at time 0 opens a cooldown
until 3000 and schedules the advance for 3000; a perfectly held target key
at time 100 during that cooldown changes nothing; firing the callback
advances the index from 0 to 1 and clears the cooldown. -/
theorem cooldown_discipline_witness :
    (Front.tick sF0 [decoyS] 0).1.cooldownUntil = some (0 + 3000) ∧
    Front.tick sFcool [pressF60] 100 = (sFcool, none) ∧
    (Front.fireAdvance sFcool).currentIndex = 0 + 1 := by
  refine ⟨?_, ?_, ?_⟩
  · exact (cooldown_discipline.1 sF0 [decoyS] 0 _ ⟨100, false, "Wrong key!"⟩ rfl).1
  · exact cooldown_discipline.2.1 sFcool [pressF60] 100 3000 rfl (by decide) (by decide)
  · exact (cooldown_discipline.2.2 sFcool (0 + 3000) [] rfl).1

/-- With no decoy key pressed, the wrong-key search comes up empty. -/
theorem dwell_decoy_none (keyData : List KeyData) (tgt : TestSequence)
    (hnodecoy : ∀ k ∈ keyData, k.keyCode ≠ tgt.keyCode → k.isPressed ≠ 1) :
    (keyData.find? fun k => k.keyCode != tgt.keyCode && k.isPressed == 1) = none := by
  rw [List.find?_eq_none]
  intro k hk
  simp only [Bool.and_eq_true, bne_iff_ne, beq_iff_eq, not_and]
  intro hne
  exact fun h1 => hnodecoy k hk hne h1

/-- Dwell tick, target key not reported pressed: the hold start is cleared
and no outcome is produced. -/
theorem dwell_tick_notPressed (s : Dwell.State) (keyData : List KeyData) (now : ℕ)
    (tgt : TestSequence)
    (hact : s.isTestActive = true)
    (htgt : s.testSequence[s.currentIndex]? = some tgt)
    (hcool : cooldownGuard s.cooldownUntil now = false)
    (hnodecoy : ∀ k ∈ keyData, k.keyCode ≠ tgt.keyCode → k.isPressed ≠ 1)
    (hfind : (keyData.find? fun k => k.keyCode == tgt.keyCode && k.isPressed == 1) = none) :
    Dwell.tick s keyData now = ({ s with holdStartTime := none }, none) := by
  have hidx : s.currentIndex < s.testSequence.length := (List.getElem?_eq_some.mp htgt).1
  unfold Dwell.tick
  rw [if_neg (by rw [hact]; push_neg; exact ⟨by simp, hidx⟩), if_neg (by rw [hcool]; simp)]
  rw [htgt]
  simp only [dwell_decoy_none keyData tgt hnodecoy, Option.isSome_none, Bool.false_eq_true,
    if_neg, if_false]
  rw [hfind]

/-- Dwell tick, first contact: the hold start is recorded and no outcome is
produced. -/
theorem dwell_tick_firstContact (s : Dwell.State) (keyData : List KeyData) (now : ℕ)
    (tgt : TestSequence) (kp : KeyData)
    (hact : s.isTestActive = true)
    (htgt : s.testSequence[s.currentIndex]? = some tgt)
    (hcool : cooldownGuard s.cooldownUntil now = false)
    (hnodecoy : ∀ k ∈ keyData, k.keyCode ≠ tgt.keyCode → k.isPressed ≠ 1)
    (hfind : (keyData.find? fun k => k.keyCode == tgt.keyCode && k.isPressed == 1) = some kp)
    (hhold : s.holdStartTime = none) :
    Dwell.tick s keyData now = ({ s with holdStartTime := some now }, none) := by
  have hidx : s.currentIndex < s.testSequence.length := (List.getElem?_eq_some.mp htgt).1
  unfold Dwell.tick
  rw [if_neg (by rw [hact]; push_neg; exact ⟨by simp, hidx⟩), if_neg (by rw [hcool]; simp)]
  rw [htgt]
  simp only [dwell_decoy_none keyData tgt hnodecoy, Option.isSome_none, Bool.false_eq_true,
    if_neg, if_false]
  rw [hfind]
  simp only [hhold]
  by_cases hdev : |kp.analogValue * 100 - tgt.targetPressure| ≤ 10
  · rw [if_pos hdev]
  · rw [if_neg hdev]

/-- Dwell tick with a recorded hold start of exactly 0: the source's
`!holdStartTime` guard is true for the falsy number 0, so the hold start is
re-armed to the current time and the attempt never resolves on this tick. -/
theorem dwell_tick_rearmZero (s : Dwell.State) (keyData : List KeyData) (now : ℕ)
    (tgt : TestSequence) (kp : KeyData)
    (hact : s.isTestActive = true)
    (htgt : s.testSequence[s.currentIndex]? = some tgt)
    (hcool : cooldownGuard s.cooldownUntil now = false)
    (hnodecoy : ∀ k ∈ keyData, k.keyCode ≠ tgt.keyCode → k.isPressed ≠ 1)
    (hfind : (keyData.find? fun k => k.keyCode == tgt.keyCode && k.isPressed == 1) = some kp)
    (hhold : s.holdStartTime = some 0) :
    Dwell.tick s keyData now = ({ s with holdStartTime := some now }, none) := by
  have hidx : s.currentIndex < s.testSequence.length := (List.getElem?_eq_some.mp htgt).1
  unfold Dwell.tick
  rw [if_neg (by rw [hact]; push_neg; exact ⟨by simp, hidx⟩), if_neg (by rw [hcool]; simp)]
  rw [htgt]
  simp only [dwell_decoy_none keyData tgt hnodecoy, Option.isSome_none, Bool.false_eq_true,
    if_neg, if_false]
  rw [hfind]
  simp only [hhold]
  by_cases hdev : |kp.analogValue * 100 - tgt.targetPressure| ≤ 10
  · rw [if_pos hdev]
    simp
  · rw [if_neg hdev]
    simp

/-- Dwell tick, held (nonzero hold start) but dwell not yet expired:
nothing happens. -/
theorem dwell_tick_early (s : Dwell.State) (keyData : List KeyData) (now : ℕ)
    (tgt : TestSequence) (kp : KeyData) (t0 : ℕ)
    (hact : s.isTestActive = true)
    (htgt : s.testSequence[s.currentIndex]? = some tgt)
    (hcool : cooldownGuard s.cooldownUntil now = false)
    (hnodecoy : ∀ k ∈ keyData, k.keyCode ≠ tgt.keyCode → k.isPressed ≠ 1)
    (hfind : (keyData.find? fun k => k.keyCode == tgt.keyCode && k.isPressed == 1) = some kp)
    (hhold : s.holdStartTime = some t0)
    (ht0 : t0 ≠ 0)
    (htime : now - t0 < 750) :
    Dwell.tick s keyData now = (s, none) := by
  have hidx : s.currentIndex < s.testSequence.length := (List.getElem?_eq_some.mp htgt).1
  unfold Dwell.tick
  rw [if_neg (by rw [hact]; push_neg; exact ⟨by simp, hidx⟩), if_neg (by rw [hcool]; simp)]
  rw [htgt]
  simp only [dwell_decoy_none keyData tgt hnodecoy, Option.isSome_none, Bool.false_eq_true,
    if_neg, if_false]
  rw [hfind]
  simp only [hhold]
  by_cases hdev : |kp.analogValue * 100 - tgt.targetPressure| ≤ 10
  · rw [if_pos hdev, if_neg ht0, if_neg (by omega)]
  · rw [if_neg hdev, if_neg ht0, if_neg (by omega)]

/-- Dwell tick at dwell expiry (nonzero hold start): resolve with the
deviation of the pressure sampled on this very tick. -/
theorem dwell_tick_resolve (s : Dwell.State) (keyData : List KeyData) (now : ℕ)
    (tgt : TestSequence) (kp : KeyData) (t0 : ℕ)
    (hact : s.isTestActive = true)
    (htgt : s.testSequence[s.currentIndex]? = some tgt)
    (hcool : cooldownGuard s.cooldownUntil now = false)
    (hnodecoy : ∀ k ∈ keyData, k.keyCode ≠ tgt.keyCode → k.isPressed ≠ 1)
    (hfind : (keyData.find? fun k => k.keyCode == tgt.keyCode && k.isPressed == 1) = some kp)
    (hhold : s.holdStartTime = some t0)
    (ht0 : t0 ≠ 0)
    (htime : 750 ≤ now - t0) :
    Dwell.tick s keyData now =
      (Dwell.handleAttempt s (|kp.analogValue * 100 - tgt.targetPressure|)
        (decide (|kp.analogValue * 100 - tgt.targetPressure| ≤ 10)) now,
       some ⟨|kp.analogValue * 100 - tgt.targetPressure|,
             decide (|kp.analogValue * 100 - tgt.targetPressure| ≤ 10),
             if |kp.analogValue * 100 - tgt.targetPressure| ≤ 10 then "Perfect!"
             else "Wrong pressure!"⟩) := by
  have hidx : s.currentIndex < s.testSequence.length := (List.getElem?_eq_some.mp htgt).1
  unfold Dwell.tick
  rw [if_neg (by rw [hact]; push_neg; exact ⟨by simp, hidx⟩), if_neg (by rw [hcool]; simp)]
  rw [htgt]
  simp only [dwell_decoy_none keyData tgt hnodecoy, Option.isSome_none, Bool.false_eq_true,
    if_neg, if_false]
  rw [hfind]
  simp only [hhold]
  by_cases hdev : |kp.analogValue * 100 - tgt.targetPressure| ≤ 10
  · rw [if_pos hdev, if_neg ht0, if_pos htime]
    simp [hdev]
  · rw [if_neg hdev, if_neg ht0, if_pos htime]
    simp [hdev]

/-- While the target key stays pressed and the dwell window of a nonzero
hold start has not yet expired, any run of telemetry ticks leaves the state
untouched and resolves nothing. -/
theorem dwell_runTicks_hold (s : Dwell.State) (tgt : TestSequence) (t0 : ℕ)
    (events : List (List KeyData × ℕ))
    (hact : s.isTestActive = true)
    (htgt : s.testSequence[s.currentIndex]? = some tgt)
    (hcool : s.cooldownUntil = none)
    (hhold : s.holdStartTime = some t0)
    (ht0 : t0 ≠ 0)
    (hev : ∀ e ∈ events,
      (∀ k ∈ e.1, k.keyCode ≠ tgt.keyCode → k.isPressed ≠ 1) ∧
      (∃ kp, e.1.find? (fun k => k.keyCode == tgt.keyCode && k.isPressed == 1) = some kp) ∧
      e.2 - t0 < 750) :
    Dwell.runTicks s events = (s, []) := by
  induction events with
  | nil => rfl
  | cons e rest ih =>
    obtain ⟨h1, ⟨kp, h2⟩, h3⟩ := hev e (by simp)
    have hstep : Dwell.tick s e.1 e.2 = (s, none) :=
      dwell_tick_early s e.1 e.2 tgt kp t0 hact htgt (by rw [hcool]; rfl) h1 h2 hhold ht0 h3
    have ih' := ih (fun e he => hev e (by simp [he]))
    unfold Dwell.runTicks
    rw [hstep]
    simp [ih']

/-- Fixture: a dwell-variant state idle on `targetF`, no hold in flight. -/
def sD0 : Dwell.State :=
  { testSequence := [targetF], currentIndex := 0, isTestActive := true,
    holdStartTime := none, cooldownUntil := none, testStats := zeroStats,
    pendingAdvance := [] }

/-- Fixture: `sD0` with contact recorded at clock time 0. -/
def sD1 : Dwell.State :=
  { testSequence := [targetF], currentIndex := 0, isTestActive := true,
    holdStartTime := some 0, cooldownUntil := none, testStats := zeroStats,
    pendingAdvance := [] }

/-- Fixture: `sD0` with contact recorded at clock time 1000. -/
def sD2 : Dwell.State :=
  { testSequence := [targetF], currentIndex := 0, isTestActive := true,
    holdStartTime := some 1000, cooldownUntil := none, testStats := zeroStats,
    pendingAdvance := [] }

/-- Fixture: target-key snapshot, key `f` pressed at exactly 0.61. -/
def pressF61 : KeyData :=
  { keyCode := 9, analogValue := 61 / 100, isPressed := 1 }

/-- C1 counterexample: the claim as stated fails when the first contact is
sampled at clock time 0. The target key `f`/60 is reported pressed at 0.61
continuously over two ticks spanning exactly the 750 ms dwell: the first
contact records hold start 0, but the tick at 750 ms re-arms the hold start
(the source's `!holdStartTime` is true for the falsy number 0) instead of
producing the claimed `{1, true, Perfect}` outcome — no outcome at all is
emitted. -/
theorem dwell_zero_hold_start_never_resolves :
    Dwell.tick sD0 [pressF61] 0 = (sD1, none) ∧
    Dwell.tick sD1 [pressF61] 750 = ({ sD1 with holdStartTime := some 750 }, none) ∧
    Dwell.runTicks sD0 [([pressF61], 0), ([pressF61], 750)]
      = ({ sD1 with holdStartTime := some 750 }, []) := by
  have hnod : ∀ k ∈ [pressF61], k.keyCode ≠ targetF.keyCode → k.isPressed ≠ 1 := by
    intro k hk hne
    rw [List.mem_singleton] at hk
    subst hk
    exact absurd rfl hne
  have h1 : Dwell.tick sD0 [pressF61] 0 = (sD1, none) :=
    dwell_tick_firstContact sD0 [pressF61] 0 targetF pressF61 rfl rfl rfl hnod rfl rfl
  have h2 : Dwell.tick sD1 [pressF61] 750
      = ({ sD1 with holdStartTime := some 750 }, none) :=
    dwell_tick_rearmZero sD1 [pressF61] 750 targetF pressF61 rfl rfl rfl hnod rfl rfl
  exact ⟨h1, h2, by simp [Dwell.runTicks, h1, h2]⟩

/-- C1 (amended claim theorem): dwell-based hold evaluation. While active
on a valid target, outside cooldown and with no decoy pressed: a tick with
the target key not reported pressed clears the hold start; a tick with the
target key pressed and no hold start records the hold start at the current
time; a hold start recorded at clock time 0 is falsy to the source's
`!holdStartTime` guard and is re-armed to the current time instead of being
evaluated (the amendment the counterexample forces); for a nonzero hold
start, pressed ticks strictly inside the 750 ms dwell window change nothing
(so the hold start persists across any such run, second top-level
conjunct), and the first pressed tick at or after 750 ms from the hold
start resolves the attempt with `deviationPercent = |sampled analogValue *
100 − targetPressure|` computed from the snapshot sampled on that resolving
tick, success exactly when the deviation is at most 10, with message
"Perfect!" on success and "Wrong pressure!" otherwise. -/
theorem dwell_hold_evaluation :
    (∀ (s : Dwell.State) (keyData : List KeyData) (now : ℕ) (tgt : TestSequence),
      s.isTestActive = true →
      s.testSequence[s.currentIndex]? = some tgt →
      cooldownGuard s.cooldownUntil now = false →
      (∀ k ∈ keyData, k.keyCode ≠ tgt.keyCode → k.isPressed ≠ 1) →
      (((keyData.find? fun k => k.keyCode == tgt.keyCode && k.isPressed == 1) = none →
          Dwell.tick s keyData now = ({ s with holdStartTime := none }, none)) ∧
        (∀ kp,
          (keyData.find? fun k => k.keyCode == tgt.keyCode && k.isPressed == 1) = some kp →
          (s.holdStartTime = none →
            Dwell.tick s keyData now = ({ s with holdStartTime := some now }, none)) ∧
          (s.holdStartTime = some 0 →
            Dwell.tick s keyData now = ({ s with holdStartTime := some now }, none)) ∧
          (∀ t0, s.holdStartTime = some t0 → t0 ≠ 0 → now - t0 < 750 →
            Dwell.tick s keyData now = (s, none)) ∧
          (∀ t0, s.holdStartTime = some t0 → t0 ≠ 0 → 750 ≤ now - t0 →
            Dwell.tick s keyData now =
              (Dwell.handleAttempt s (|kp.analogValue * 100 - tgt.targetPressure|)
                (decide (|kp.analogValue * 100 - tgt.targetPressure| ≤ 10)) now,
               some ⟨|kp.analogValue * 100 - tgt.targetPressure|,
                     decide (|kp.analogValue * 100 - tgt.targetPressure| ≤ 10),
                     if |kp.analogValue * 100 - tgt.targetPressure| ≤ 10 then "Perfect!"
                     else "Wrong pressure!"⟩))))) ∧
    (∀ (s : Dwell.State) (tgt : TestSequence) (t0 : ℕ)
       (events : List (List KeyData × ℕ)),
      s.isTestActive = true →
      s.testSequence[s.currentIndex]? = some tgt →
      s.cooldownUntil = none →
      s.holdStartTime = some t0 →
      t0 ≠ 0 →
      (∀ e ∈ events,
        (∀ k ∈ e.1, k.keyCode ≠ tgt.keyCode → k.isPressed ≠ 1) ∧
        (∃ kp, e.1.find? (fun k => k.keyCode == tgt.keyCode && k.isPressed == 1) = some kp) ∧
        e.2 - t0 < 750) →
      Dwell.runTicks s events = (s, [])) := by
  constructor
  · intro s keyData now tgt hact htgt hcool hnodecoy
    refine ⟨fun hfind => dwell_tick_notPressed s keyData now tgt hact htgt hcool hnodecoy hfind,
            fun kp hfind => ⟨?_, ?_, ?_, ?_⟩⟩
    · exact fun hhold =>
        dwell_tick_firstContact s keyData now tgt kp hact htgt hcool hnodecoy hfind hhold
    · exact fun hhold =>
        dwell_tick_rearmZero s keyData now tgt kp hact htgt hcool hnodecoy hfind hhold
    · exact fun t0 hhold ht0 htime =>
        dwell_tick_early s keyData now tgt kp t0 hact htgt hcool hnodecoy hfind hhold ht0 htime
    · exact fun t0 hhold ht0 htime =>
        dwell_tick_resolve s keyData now tgt kp t0 hact htgt hcool hnodecoy hfind hhold ht0 htime
  · exact fun s tgt t0 events hact htgt hcool hhold ht0 hev =>
      dwell_runTicks_hold s tgt t0 events hact htgt hcool hhold ht0 hev

/-- C1 witness: the spec's scenario run from a nonzero first-contact time.
Target `f`/60; contact at time 1000 records the hold start; an intermediate
pressed tick at 1100 changes nothing; the pressed tick at 1750 (750 ms into
the hold) with `analogValue = 0.61` resolves `{deviation 1, success,
"Perfect!"}`. -/
theorem dwell_hold_evaluation_witness :
    Dwell.tick sD0 [pressF61] 1000 = (sD2, none) ∧
    Dwell.runTicks sD2 [([pressF61], 1100)] = (sD2, []) ∧
    (Dwell.tick sD2 [pressF61] 1750).2 = some ⟨1, true, "Perfect!"⟩ := by
  have hnod : ∀ k ∈ [pressF61], k.keyCode ≠ targetF.keyCode → k.isPressed ≠ 1 := by
    intro k hk hne
    rw [List.mem_singleton] at hk
    subst hk
    exact absurd rfl hne
  refine ⟨?_, ?_, ?_⟩
  · exact ((dwell_hold_evaluation.1 sD0 [pressF61] 1000 targetF rfl rfl rfl hnod).2
      pressF61 rfl).1 rfl
  · exact dwell_hold_evaluation.2 sD2 targetF 1000 [([pressF61], 1100)] rfl rfl rfl rfl
      (by omega)
      (by intro e he
          rw [List.mem_singleton] at he
          subst he
          exact ⟨hnod, ⟨pressF61, rfl⟩, by omega⟩)
  · have h := (((dwell_hold_evaluation.1 sD2 [pressF61] 1750 targetF rfl rfl rfl hnod).2
      pressF61 rfl).2.2.2) 1000 rfl (by omega) (by omega)
    rw [h]
    have hdev : |pressF61.analogValue * 100 - targetF.targetPressure| = 1 := by
      show |(61 / 100 : ℚ) * 100 - 60| = 1
      norm_num
    simp only [hdev]
    norm_num

/-- C5 (code-bug theorem): the source's literal behaviour at the failing
input. An attempt resolves at time 1000 (scheduling the advance callback
for 4000); `resetTest` then rewinds the index to 0 but does NOT cancel the
pending callback; when the stale callback later fires, the post-reset index
jumps from 0 to 1 with no attempt having resolved. -/
theorem stale_advance_fires_after_reset :
    (Dwell.tick sD0 [decoyS] 1000).2 = some ⟨100, false, "Wrong key!"⟩ ∧
    (Dwell.resetTest (Dwell.tick sD0 [decoyS] 1000).1 (fun _ => 0)).currentIndex = 0 ∧
    (Dwell.resetTest (Dwell.tick sD0 [decoyS] 1000).1 (fun _ => 0)).pendingAdvance
      = [1000 + 3000] ∧
    (Dwell.fireAdvance
      (Dwell.resetTest (Dwell.tick sD0 [decoyS] 1000).1 (fun _ => 0))).currentIndex = 1 :=
  ⟨rfl, rfl, rfl, rfl⟩

/-- C6 counterexample: a payload with zero valid groups does NOT yield an
empty snapshot set — the previous set is retained (the `onmessage` handler
skips `setKeyData` when the regex finds no match). -/
theorem zero_group_payload_keeps_previous :
    Decoder.onMessage [{ keyCode := 9, analogValue := none, isPressed := 1 }] "xyz"
      = [{ keyCode := 9, analogValue := none, isPressed := 1 }] ∧
    Decoder.onMessage [{ keyCode := 9, analogValue := none, isPressed := 1 }] "xyz" ≠ [] := by
  constructor
  · rfl
  · decide

/-- C6 (amended claim theorem): decoding is total and never merges. A
payload with at least one regex match replaces the previous snapshot set
wholesale with the freshly decoded set, independently of the previous set;
a payload with zero matches (or an empty message) leaves the previous set
unchanged — it does not clear it. -/
theorem onMessage_replace_or_retain (prev : List Decoder.DecodedKey) (message : String) :
    ((message = "" ∨ Decoder.scanGroups message.data = []) →
      Decoder.onMessage prev message = prev) ∧
    (message ≠ "" → Decoder.scanGroups message.data ≠ [] →
      Decoder.onMessage prev message = Decoder.parsePayload message) ∧
    (∀ prev', message ≠ "" → Decoder.scanGroups message.data ≠ [] →
      Decoder.onMessage prev message = Decoder.onMessage prev' message) := by
  have hrepl : ∀ (p : List Decoder.DecodedKey), message ≠ "" →
      Decoder.scanGroups message.data ≠ [] →
      Decoder.onMessage p message = Decoder.parsePayload message := by
    intro p hm hscan
    unfold Decoder.onMessage
    rw [if_neg hm]
    cases hs : Decoder.scanGroups message.data with
    | nil => exact absurd hs hscan
    | cons g gs =>
      show List.map Decoder.parseGroup (g :: gs) = Decoder.parsePayload message
      simp only [Decoder.parsePayload, hs]
  refine ⟨?_, hrepl prev, fun prev' hm hscan => ?_⟩
  · intro h
    unfold Decoder.onMessage
    by_cases hm : message = ""
    · rw [if_pos hm]
    · rw [if_neg hm]
      rcases h with h | h
      · exact absurd h hm
      · rw [h]
  · rw [hrepl prev hm hscan, hrepl prev' hm hscan]

/-- C6 witness: a payload with one valid group replaces the previous set
with the decoded set; an empty message retains the previous set. -/
theorem onMessage_replace_or_retain_witness :
    Decoder.onMessage [{ keyCode := 9, analogValue := none, isPressed := 1 }] "(22:0.9:1)"
      = Decoder.parsePayload "(22:0.9:1)" ∧
    Decoder.onMessage [{ keyCode := 9, analogValue := none, isPressed := 1 }] ""
      = [{ keyCode := 9, analogValue := none, isPressed := 1 }] :=
  ⟨(onMessage_replace_or_retain
      [{ keyCode := 9, analogValue := none, isPressed := 1 }] "(22:0.9:1)").2.1
      (by decide) (by decide),
   (onMessage_replace_or_retain
      [{ keyCode := 9, analogValue := none, isPressed := 1 }] "").1 (Or.inl rfl)⟩

/-- Spec-side comparator for C7: a plain decimal literal (digits with an
optional nonempty fractional part). -/
def specDecimalLit (a : List Char) : Bool :=
  match a.dropWhile Char.isDigit with
  | [] => !(a.takeWhile Char.isDigit).isEmpty
  | '.' :: f => !(a.takeWhile Char.isDigit).isEmpty && !f.isEmpty && f.all Char.isDigit
  | _ => false

/-- Spec-side comparator for C7, following the claim's words: a
syntactically valid group has a nonempty all-digit keyCode field, a
nonempty all-digit pressedFlag field, and an analog field that is a decimal
literal with value in `[0,1]`. -/
def specValidGroup (g : Decoder.Group) : Bool :=
  !g.keyCodeStr.isEmpty && g.keyCodeStr.all Char.isDigit &&
  !g.pressedStr.isEmpty && g.pressedStr.all Char.isDigit &&
  specDecimalLit g.analogStr &&
  (match Decoder.parseFloatQ g.analogStr with
   | some v => decide (0 ≤ v ∧ v ≤ 1)
   | none => false)

/-- Spec-side comparator for C7: how many of the groups found in the
payload are valid in the claim's sense. -/
def specCountValidGroups (message : String) : ℕ :=
  ((Decoder.scanGroups message.data).filter specValidGroup).length

/-- C7 counterexample: the payload `(9:x:1)` contains zero syntactically
valid groups in the claim's sense (the analog field is not a decimal in
`[0,1]`), yet the decoder emits one record for it — the regex accepts any
nonempty colon-free analog field. -/
theorem decoder_emits_invalid_analog_group :
    (Decoder.parsePayload "(9:x:1)").length = 1 ∧
    specCountValidGroups "(9:x:1)" = 0 := by
  constructor
  · rfl
  · decide

/-- Every group found by the scan has the shape the regex enforces. -/
theorem matchGroupAt_shape (s : List Char) (g : Decoder.Group) (rest : List Char)
    (h : Decoder.matchGroupAt s = some (g, rest)) :
    g.keyCodeStr ≠ [] ∧ (∀ c ∈ g.keyCodeStr, c.isDigit) ∧
    g.analogStr ≠ [] ∧ (∀ c ∈ g.analogStr, c ≠ ':') ∧
    g.pressedStr ≠ [] ∧ (∀ c ∈ g.pressedStr, c.isDigit) := by
  simp only [Decoder.matchGroupAt, Option.bind_eq_some] at h
  obtain ⟨r1, h1, dr, h2, r3, h3, ar, h4, r5, h5, pr, h6, r7, h7, hfin⟩ := h
  simp only [Option.some.injEq, Prod.mk.injEq] at hfin
  obtain ⟨hg, -⟩ := hfin
  subst hg
  have d2 := Decoder.takeNonempty_sound _ _ _ h2
  have d4 := Decoder.takeNonempty_sound _ _ _ h4
  have d6 := Decoder.takeNonempty_sound _ _ _ h6
  refine ⟨d2.2.1, d2.2.2, d4.2.1, ?_, d6.2.1, d6.2.2⟩
  intro c hc
  have := d4.2.2 c hc
  simpa using this

/-- Every group in the scan result arises from a successful regex match. -/
theorem mem_scanGroupsAux (fuel : ℕ) :
    ∀ (s : List Char) (g : Decoder.Group), g ∈ Decoder.scanGroupsAux fuel s →
      ∃ s' rest, Decoder.matchGroupAt s' = some (g, rest) := by
  induction fuel with
  | zero =>
    intro s g h
    simp [Decoder.scanGroupsAux] at h
  | succ fuel ih =>
    intro s g h
    match s with
    | [] => simp [Decoder.scanGroupsAux] at h
    | c :: cs =>
      cases hm : Decoder.matchGroupAt (c :: cs) with
      | some gr =>
        obtain ⟨g', rest⟩ := gr
        simp only [Decoder.scanGroupsAux, hm] at h
        rcases List.mem_cons.mp h with h | h
        · exact ⟨c :: cs, rest, by rw [hm, h]⟩
        · exact ih rest g h
      | none =>
        simp only [Decoder.scanGroupsAux, hm] at h
        exact ih cs g h

/-- C7 (amended claim theorem): for every payload, the number of emitted
records equals the number of regex-matched groups, where a group has a
nonempty all-digit keyCode field, a nonempty colon-free analog field (any
characters, not necessarily a decimal in `[0,1]`) and a nonempty all-digit
pressedFlag field; everything else in the payload, including malformed or
incomplete trailing fragments, is skipped without any exception — the decoder
is a total function. -/
theorem decoder_count_matches_scan (message : String) :
    (Decoder.parsePayload message).length = (Decoder.scanGroups message.data).length ∧
    (∀ g ∈ Decoder.scanGroups message.data,
      g.keyCodeStr ≠ [] ∧ (∀ c ∈ g.keyCodeStr, c.isDigit) ∧
      g.analogStr ≠ [] ∧ (∀ c ∈ g.analogStr, c ≠ ':') ∧
      g.pressedStr ≠ [] ∧ (∀ c ∈ g.pressedStr, c.isDigit)) := by
  constructor
  · simp [Decoder.parsePayload]
  · intro g hg
    obtain ⟨s', rest, hm⟩ := mem_scanGroupsAux message.data.length message.data g hg
    exact matchGroupAt_shape s' g rest hm

/-- C7 witness: the payload `(9:0.61:1)` yields exactly as many records as
matched groups, and its one matched group has the regex-enforced shape. -/
theorem decoder_count_matches_scan_witness :
    (Decoder.parsePayload "(9:0.61:1)").length
      = (Decoder.scanGroups "(9:0.61:1)".data).length ∧
    (⟨['9'], ['0', '.', '6', '1'], ['1']⟩ : Decoder.Group).keyCodeStr ≠ [] :=
  ⟨(decoder_count_matches_scan "(9:0.61:1)").1,
   ((decoder_count_matches_scan "(9:0.61:1)").2
      ⟨['9'], ['0', '.', '6', '1'], ['1']⟩ (by decide)).1⟩

/-- C8 (claim theorem): every generated sequence (release variant) has
length exactly 20; every element draws its key from the 7 fixed home-row
keys and its target pressure from the configured level set — `{30,60,100}`
for `levelCount = 3`, `{50,100}` for `levelCount = 2`. -/
theorem generated_sequence_well_formed :
    ∀ (rand : ℕ → ℚ), (∀ n, 0 ≤ rand n ∧ rand n < 1) →
    ∀ levelCount : ℕ,
      (Front.generateTestSequence levelCount rand).length = 20 ∧
      (∀ e ∈ Front.generateTestSequence levelCount rand,
        (e.key, e.keyCode) ∈ HOME_ROW_KEYS ∧
        e.targetPressure ∈ (Front.PRESSURE_LEVELS_MAP levelCount).getD [30, 60, 100]) ∧
      (levelCount = 3 → ∀ e ∈ Front.generateTestSequence levelCount rand,
        e.targetPressure ∈ ([30, 60, 100] : List ℚ)) ∧
      (levelCount = 2 → ∀ e ∈ Front.generateTestSequence levelCount rand,
        e.targetPressure ∈ ([50, 100] : List ℚ)) := by
  intro rand hrand levelCount
  have hmain : ∀ e ∈ Front.generateTestSequence levelCount rand,
      (e.key, e.keyCode) ∈ HOME_ROW_KEYS ∧
      e.targetPressure ∈ (Front.PRESSURE_LEVELS_MAP levelCount).getD [30, 60, 100] := by
    intro e he
    unfold Front.generateTestSequence at he
    obtain ⟨i, _, rfl⟩ := List.mem_map.mp he
    constructor
    · have hidx : (⌊rand (2 * i) * ((HOME_ROW_KEYS.length : ℕ) : ℚ)⌋).toNat
          < HOME_ROW_KEYS.length :=
        floor_index_lt _ _ (hrand (2 * i)).1 (hrand (2 * i)).2 (by simp [HOME_ROW_KEYS])
      have := getD_mem_of_lt HOME_ROW_KEYS _ ("a", 4) hidx
      simpa using this
    · have hpos : 0 < ((Front.PRESSURE_LEVELS_MAP levelCount).getD [30, 60, 100]).length := by
        unfold Front.PRESSURE_LEVELS_MAP
        split
        · simp
        · split <;> simp
      have hidx : (⌊rand (2 * i + 1) *
            ((((Front.PRESSURE_LEVELS_MAP levelCount).getD [30, 60, 100]).length : ℕ) : ℚ)⌋).toNat
          < ((Front.PRESSURE_LEVELS_MAP levelCount).getD [30, 60, 100]).length :=
        floor_index_lt _ _ (hrand (2 * i + 1)).1 (hrand (2 * i + 1)).2 hpos
      exact getD_mem_of_lt _ _ 0 hidx
  refine ⟨by simp [Front.generateTestSequence], hmain, ?_, ?_⟩
  · intro h3 e he
    have := (hmain e he).2
    rw [h3] at this
    simpa [Front.PRESSURE_LEVELS_MAP] using this
  · intro h2 e he
    have := (hmain e he).2
    rw [h2] at this
    simpa [Front.PRESSURE_LEVELS_MAP] using this

/-- C8 witness: a concrete random stream (constantly 0) generates a
sequence of length 20 whose first element is valid. -/
theorem generated_sequence_well_formed_witness :
    (Front.generateTestSequence 3 (fun _ => 0)).length = 20 ∧
    (∀ e ∈ Front.generateTestSequence 3 (fun _ => 0),
      e.targetPressure ∈ ([30, 60, 100] : List ℚ)) :=
  ⟨(generated_sequence_well_formed (fun _ => 0)
      (fun _ => ⟨le_refl 0, by norm_num⟩) 3).1,
   (generated_sequence_well_formed (fun _ => 0)
      (fun _ => ⟨le_refl 0, by norm_num⟩) 3).2.2.1 rfl⟩
